import Mathlib

/-!
Verification of the flashlight `PowerSpectrum` audio-feature pipeline
(`src/flashlight/lib/audio/feature/PowerSpectrum.{h,cpp}`).

Samples are modelled as rationals (exact arithmetic in place of IEEE-754
single precision).  The FFT backend (Accelerate / IPP), the dither noise
source and the window-coefficient table are external to the sources under
verification; they enter the model as function parameters, and the
repository components that are declared but whose sources are absent
(`FeatureParams`, `Dither`, `PreEmphasis`, `Windowing`, `frameSignal`)
are modelled from the specification, as marked on each definition.
-/

namespace Flashlight

/-- Modelled from the spec: the `FeatureParams` value type
(`FeatureParams.h` is not among the sources).  Fields are those the
`PowerSpectrum` code reads: sampling frequency (Hz), frame size and
stride (ms), transform length `nFft`, dither amplitude, pre-emphasis
coefficient and the zero-mean-per-frame flag.  The window type is
represented by the coefficient-generating function passed to the
pipeline separately. -/
structure FeatureParams where
  samplingFreq : Int
  frameSizeMs : Int
  frameStrideMs : Int
  nFft : Nat
  ditherVal : ℚ
  preemCoef : ℚ
  zeroMeanFrame : Bool
deriving Repr, DecidableEq

namespace FeatureParams

/-- Modelled from the spec: derived samples per frame
(`samplesPerFrame`), `samplingFreq * frameSizeMs / 1000` (16000 Hz and
25 ms give 400 samples, as in the spec's concrete scenario). -/
def numFrameSizeSamples (p : FeatureParams) : Int :=
  p.samplingFreq * p.frameSizeMs / 1000

/-- Modelled from the spec: derived samples per stride
(`samplesPerStride`). -/
def numFrameStrideSamples (p : FeatureParams) : Int :=
  p.samplingFreq * p.frameStrideMs / 1000

/-- Modelled from the spec: number of retained spectral bins,
`K = transformLength / 2 + 1`. -/
def filterFreqResponseLen (p : FeatureParams) : Nat :=
  p.nFft / 2 + 1

/-- Modelled from the spec: output feature size per frame equals `K`
(the code's `powSpecFeatSz`). -/
def powSpecFeatSz (p : FeatureParams) : Nat :=
  p.filterFreqResponseLen

/-- Modelled from the spec: `numFrames(N) =
max(0, floor((N - samplesPerFrame) / samplesPerStride) + 1)`. -/
def numFrames (p : FeatureParams) (inputSz : Nat) : Nat :=
  let fs := p.numFrameSizeSamples.toNat
  let ss := p.numFrameStrideSamples.toNat
  if inputSz < fs then 0 else (inputSz - fs) / ss + 1

end FeatureParams

/-- The error taxonomy surfaced by the pipeline (spec section 7). -/
inductive PsError where
  | invalidConfiguration
  | invalidArgument
  | internalInconsistency
deriving Repr, DecidableEq

/-- Modelled from the spec: the framer (`frameSignal` of
`SpeechUtils.cpp`, not among the sources).  Slides a window of
`samplesPerFrame` samples across the input with stride
`samplesPerStride`; trailing samples that cannot form a complete frame
are discarded.  The result is the frame matrix, one list per frame. -/
def frameSignal (p : FeatureParams) (input : List ℚ) : List (List ℚ) :=
  let fs := p.numFrameSizeSamples.toNat
  let ss := p.numFrameStrideSamples.toNat
  (List.range (p.numFrames input.length)).map
    (fun f => (input.drop (f * ss)).take fs)

/-- Modelled from the spec: `Dither` (source absent) adds noise of the
configured amplitude to every sample of every frame, independently and
identically across frames.  The unspecified pseudo-random source is the
parameter `noise` (frame index, sample index). -/
def ditherFrames (noise : Nat → Nat → ℚ) (ditherVal : ℚ)
    (frames : List (List ℚ)) : List (List ℚ) :=
  frames.mapIdx (fun f frame =>
    frame.mapIdx (fun i x => x + ditherVal * noise f i))

/-- The zero-mean stage of `powSpectrumImpl` (PowerSpectrum.cpp lines
72-80): subtract the per-frame arithmetic mean, with the code's divisor
`nSamples`. -/
def zeroMeanFrames (nSamples : Nat) (frames : List (List ℚ)) :
    List (List ℚ) :=
  frames.map (fun fr => fr.map (fun x => x - fr.sum / (nSamples : ℚ)))

/-- Modelled from the spec: one frame of `PreEmphasis` (source absent),
`y[0] = x[0] - coef*h`, `y[i] = x[i] - coef*x[i-1]` for `i > 0`. -/
def preemFrame (coef h : ℚ) (fr : List ℚ) : List ℚ :=
  fr.zipWith (fun x xprev => x - coef * xprev) (h :: fr)

/-- Modelled from the spec: `PreEmphasis.applyInPlace` over the frame
matrix (source absent); `h` is the last sample of the previous frame in
the same utterance, drawn from the original (input) frame content, and
0 for the first frame. -/
def preEmphasisFrames (coef : ℚ) (frames : List (List ℚ)) :
    List (List ℚ) :=
  (frames.zip ((0 : ℚ) :: frames.map (fun fr => fr.getLastD 0))).map
    (fun q => preemFrame coef q.2 q.1)

/-- Modelled from the spec: the precomputed window coefficient vector of
length `samplesPerFrame`; `w` generates the coefficient at each index
from the configured window type. -/
def windowCoefs (w : Nat → ℚ) (nSamples : Nat) : List ℚ :=
  (List.range nSamples).map w

/-- Modelled from the spec: `Windowing.applyInPlace` (source absent)
multiplies each frame element-wise by the fixed coefficient vector. -/
def windowFrames (coefs : List ℚ) (frames : List (List ℚ)) :
    List (List ℚ) :=
  frames.map (fun fr => fr.zipWith (fun x c => x * c) coefs)

/-- The copy of one frame into the zero-initialised transform input
buffer `inFftBuf_` of length `nFft` (PowerSpectrum.cpp lines 27, 89):
the frame occupies the front, the tail stays zero. -/
def padTo (n : Nat) (fr : List ℚ) : List ℚ :=
  fr.take n ++ List.replicate (n - fr.length) 0

/-- `PowerSpectrum::powSpectrumImpl` (PowerSpectrum.cpp lines 63-105):
dither when `ditherVal != 0`, per-frame zero-mean when the flag is set,
pre-emphasis when `preemCoef != 0`, windowing unconditionally, then the
per-frame backend transform `tf` (the abstract real-to-complex forward
transform producing the retained magnitude bins), concatenated
frame-major.  `w` generates the window coefficients, `noise` the dither
noise. -/
def powSpectrumImpl (w : Nat → ℚ) (noise : Nat → Nat → ℚ)
    (tf : List ℚ → List ℚ) (p : FeatureParams)
    (frames : List (List ℚ)) : List ℚ :=
  let nSamples := p.numFrameSizeSamples.toNat
  let frames1 := if p.ditherVal ≠ 0 then
    ditherFrames noise p.ditherVal frames else frames
  let frames2 := if p.zeroMeanFrame then
    zeroMeanFrames nSamples frames1 else frames1
  let frames3 := if p.preemCoef ≠ 0 then
    preEmphasisFrames p.preemCoef frames2 else frames2
  let frames4 := windowFrames (windowCoefs w nSamples) frames3
  frames4.flatMap (fun fr => tf (padTo p.nFft fr))

/-- `PowerSpectrum::apply` (PowerSpectrum.cpp lines 55-61): frame the
input; an empty frame matrix returns the empty output, otherwise run
the pipeline. -/
def apply (w : Nat → ℚ) (noise : Nat → Nat → ℚ)
    (tf : List ℚ → List ℚ) (p : FeatureParams) (input : List ℚ) :
    List ℚ :=
  let frames := frameSignal p input
  if frames.isEmpty then [] else powSpectrumImpl w noise tf p frames

/-- `PowerSpectrum::outputSize` (PowerSpectrum.cpp lines 138-140). -/
def outputSize (p : FeatureParams) (inputSz : Nat) : Nat :=
  p.powSpecFeatSz * p.numFrames inputSz

/-- The per-utterance loop body of `PowerSpectrum::batchApply`
(PowerSpectrum.cpp lines 120-130): each utterance's `apply` result is
checked against the statically predicted `outputSz` and placed in
order. -/
def batchLoop (outputSz : Nat) (applyFn : Nat → List ℚ) :
    List Nat → Except PsError (List ℚ)
  | [] => Except.ok []
  | b :: rest =>
    let curFeat := applyFn b
    if outputSz ≠ curFeat.length then Except.error .internalInconsistency
    else (batchLoop outputSz applyFn rest).map (fun feats => curFeat ++ feats)

/-- `PowerSpectrum::batchApply` (PowerSpectrum.cpp lines 107-132):
guards on `batchSz <= 0` and divisibility, then applies the pipeline to
each of the `batchSz` consecutive slices of length `N`. -/
def batchApply (w : Nat → ℚ) (noise : Nat → Nat → ℚ)
    (tf : List ℚ → List ℚ) (p : FeatureParams) (input : List ℚ)
    (batchSz : Int) : Except PsError (List ℚ) :=
  if batchSz ≤ 0 then Except.error .invalidArgument
  else if input.length % batchSz.toNat ≠ 0 then
    Except.error .invalidArgument
  else
    let N := input.length / batchSz.toNat
    let outputSz := outputSize p N
    batchLoop outputSz
      (fun b => apply w noise tf p ((input.drop (b * N)).take N))
      (List.range batchSz.toNat)

/-- `PowerSpectrum::validatePowSpecParams` (PowerSpectrum.cpp lines
142-154): the five configuration checks, in source order. -/
def validatePowSpecParams (p : FeatureParams) : Except PsError Unit :=
  if p.samplingFreq ≤ 0 then Except.error .invalidConfiguration
  else if p.frameSizeMs ≤ 0 then Except.error .invalidConfiguration
  else if p.frameStrideMs ≤ 0 then Except.error .invalidConfiguration
  else if p.numFrameSizeSamples ≤ 0 then
    Except.error .invalidConfiguration
  else if p.numFrameStrideSamples ≤ 0 then
    Except.error .invalidConfiguration
  else Except.ok ()

/-- The state a successful construction produces: the parameters and
the transform buffers `inFftBuf_` (length `nFft`, zeroed) and
`outFftBuf_` (length `2 * nFft`), PowerSpectrum.cpp lines 26-28. -/
structure PowerSpectrumState where
  featParams : FeatureParams
  inFftBuf : List ℚ
  outFftBuf : List ℚ
deriving Repr, DecidableEq

/-- `PowerSpectrum::PowerSpectrum` (PowerSpectrum.cpp lines 20-53):
validation runs first; only on success are the transform buffers
allocated. -/
def mkPowerSpectrum (p : FeatureParams) :
    Except PsError PowerSpectrumState :=
  match validatePowSpecParams p with
  | Except.error e => Except.error e
  | Except.ok _ =>
      Except.ok ⟨p, List.replicate p.nFft 0,
        List.replicate (2 * p.nFft) 0⟩

/-- A `FeatureParams` value passing all five construction checks. -/
def validParams (p : FeatureParams) : Prop :=
  0 < p.samplingFreq ∧ 0 < p.frameSizeMs ∧ 0 < p.frameStrideMs ∧
    0 < p.numFrameSizeSamples ∧ 0 < p.numFrameStrideSamples

instance (p : FeatureParams) : Decidable (validParams p) := by
  unfold validParams; infer_instance

/-- The names of the four preprocessing stages, for stating the spec's
stage-order description. -/
inductive Stage where
  | dither
  | zeroMean
  | preEmphasis
  | windowing
deriving Repr, DecidableEq

/-- Spec-side description (for a refinement comparison with
`powSpectrumImpl`): the stage sequence the spec prescribes — dither
only when the amplitude is nonzero, zero-mean only when the flag is
set, pre-emphasis only when the coefficient is nonzero, windowing
always, in that order. -/
def specStageList (p : FeatureParams) : List Stage :=
  (if p.ditherVal ≠ 0 then [Stage.dither] else []) ++
  (if p.zeroMeanFrame then [Stage.zeroMean] else []) ++
  (if p.preemCoef ≠ 0 then [Stage.preEmphasis] else []) ++
  [Stage.windowing]

/-- The frame-matrix action of each named stage, with the pipeline's
stage implementations. -/
def runStage (w : Nat → ℚ) (noise : Nat → Nat → ℚ) (p : FeatureParams) :
    Stage → List (List ℚ) → List (List ℚ)
  | Stage.dither => ditherFrames noise p.ditherVal
  | Stage.zeroMean => zeroMeanFrames p.numFrameSizeSamples.toNat
  | Stage.preEmphasis => preEmphasisFrames p.preemCoef
  | Stage.windowing =>
      windowFrames (windowCoefs w p.numFrameSizeSamples.toNat)

/-- Run a sequence of named stages left to right. -/
def runStages (w : Nat → ℚ) (noise : Nat → Nat → ℚ) (p : FeatureParams)
    (stages : List Stage) (frames : List (List ℚ)) : List (List ℚ) :=
  stages.foldl (fun fs st => runStage w noise p st fs) frames

/-- `powSpectrumImpl` with the pre-emphasis stage removed (the other
stages exactly as in PowerSpectrum.cpp lines 63-105), for the
coefficient-zero identity comparison. -/
def powSpectrumImplNoPreem (w : Nat → ℚ) (noise : Nat → Nat → ℚ)
    (tf : List ℚ → List ℚ) (p : FeatureParams)
    (frames : List (List ℚ)) : List ℚ :=
  let nSamples := p.numFrameSizeSamples.toNat
  let frames1 := if p.ditherVal ≠ 0 then
    ditherFrames noise p.ditherVal frames else frames
  let frames2 := if p.zeroMeanFrame then
    zeroMeanFrames nSamples frames1 else frames1
  let frames4 := windowFrames (windowCoefs w nSamples) frames2
  frames4.flatMap (fun fr => tf (padTo p.nFft fr))

/-! ### Helper lemmas -/

lemma length_frameSignal (p : FeatureParams) (input : List ℚ) :
    (frameSignal p input).length = p.numFrames input.length := by
  simp [frameSignal]

lemma numFrames_eq_zero_iff (p : FeatureParams) (n : Nat) :
    p.numFrames n = 0 ↔ n < p.numFrameSizeSamples.toNat := by
  unfold FeatureParams.numFrames
  by_cases h : n < p.numFrameSizeSamples.toNat <;> simp [h]

lemma length_ditherFrames (noise : Nat → Nat → ℚ) (dv : ℚ)
    (frames : List (List ℚ)) :
    (ditherFrames noise dv frames).length = frames.length := by
  simp [ditherFrames]

lemma length_zeroMeanFrames (n : Nat) (frames : List (List ℚ)) :
    (zeroMeanFrames n frames).length = frames.length := by
  simp [zeroMeanFrames]

lemma length_preEmphasisFrames (coef : ℚ) (frames : List (List ℚ)) :
    (preEmphasisFrames coef frames).length = frames.length := by
  simp [preEmphasisFrames]

lemma length_windowFrames (coefs : List ℚ) (frames : List (List ℚ)) :
    (windowFrames coefs frames).length = frames.length := by
  simp [windowFrames]

lemma length_flatMap_const {α : Type} (g : α → List ℚ) (K : Nat)
    (l : List α) (hg : ∀ x, (g x).length = K) :
    (l.flatMap g).length = K * l.length := by
  induction l with
  | nil => simp
  | cons x xs ih =>
      simp [List.flatMap_cons, ih, hg x, Nat.mul_succ, Nat.add_comm]

lemma powSpectrumImpl_length (w : Nat → ℚ) (noise : Nat → Nat → ℚ)
    (tf : List ℚ → List ℚ) (p : FeatureParams)
    (htf : ∀ x, (tf x).length = p.powSpecFeatSz)
    (frames : List (List ℚ)) :
    (powSpectrumImpl w noise tf p frames).length =
      p.powSpecFeatSz * frames.length := by
  unfold powSpectrumImpl
  rw [length_flatMap_const _ _ _ (fun fr => htf (padTo p.nFft fr))]
  congr 1
  rw [length_windowFrames]
  by_cases hd : p.ditherVal = 0 <;> by_cases hz : p.zeroMeanFrame <;>
    by_cases hpe : p.preemCoef = 0 <;>
    simp [hd, hz, hpe, length_ditherFrames, length_zeroMeanFrames,
      length_preEmphasisFrames]

lemma apply_length (w : Nat → ℚ) (noise : Nat → Nat → ℚ)
    (tf : List ℚ → List ℚ) (p : FeatureParams)
    (htf : ∀ x, (tf x).length = p.powSpecFeatSz) (input : List ℚ) :
    (apply w noise tf p input).length = outputSize p input.length := by
  unfold apply outputSize
  by_cases h : (frameSignal p input).isEmpty
  · rw [if_pos h]
    have h0 : (frameSignal p input).length = 0 := by
      simpa [List.isEmpty_iff_length_eq_zero] using h
    rw [length_frameSignal] at h0
    simp [h0]
  · rw [if_neg h]
    rw [powSpectrumImpl_length w noise tf p htf, length_frameSignal]

lemma batchLoop_ok_of_len (o : Nat) (f : Nat → List ℚ) (bs : List Nat)
    (hf : ∀ b ∈ bs, (f b).length = o) :
    batchLoop o f bs = Except.ok (bs.flatMap f) := by
  induction bs with
  | nil => simp [batchLoop]
  | cons b rest ih =>
      have hb : (f b).length = o := hf b (List.mem_cons_self b rest)
      rw [batchLoop, if_neg (by omega),
        ih (fun x hx => hf x (List.mem_cons_of_mem b hx))]
      simp [List.flatMap_cons, Except.map]

lemma except_map_eq_error {α β : Type} (g : α → β)
    (x : Except PsError α) (e : PsError) :
    x.map g = Except.error e ↔ x = Except.error e := by
  cases x <;> simp [Except.map]

lemma batchLoop_error_internal_iff (o : Nat) (f : Nat → List ℚ)
    (bs : List Nat) :
    batchLoop o f bs = Except.error PsError.internalInconsistency ↔
      ∃ b ∈ bs, (f b).length ≠ o := by
  induction bs with
  | nil => simp [batchLoop]
  | cons b rest ih =>
      rw [batchLoop]
      by_cases hb : o ≠ (f b).length
      · rw [if_pos hb]
        constructor
        · intro _
          exact ⟨b, List.mem_cons_self b rest, fun hc => hb hc.symm⟩
        · intro _
          rfl
      · rw [if_neg hb]
        push_neg at hb
        rw [except_map_eq_error, ih]
        constructor
        · rintro ⟨b2, hb2, hne⟩
          exact ⟨b2, List.mem_cons_of_mem b hb2, hne⟩
        · rintro ⟨b2, hb2, hne⟩
          rcases List.mem_cons.mp hb2 with rfl | hb2
          · exact absurd hb.symm hne
          · exact ⟨b2, hb2, hne⟩

lemma batchLoop_ne_invalidArgument (o : Nat) (f : Nat → List ℚ)
    (bs : List Nat) :
    batchLoop o f bs ≠ Except.error PsError.invalidArgument := by
  induction bs with
  | nil => simp [batchLoop]
  | cons b rest ih =>
      rw [batchLoop]
      by_cases hb : o ≠ (f b).length
      · rw [if_pos hb]
        simp
      · rw [if_neg hb]
        intro h
        exact ih ((except_map_eq_error _ _ _).mp h)

lemma slice_length (input : List ℚ) (Bn N b : Nat)
    (hlen : input.length = Bn * N) (hb : b < Bn) :
    ((input.drop (b * N)).take N).length = N := by
  rw [List.length_take, List.length_drop, hlen]
  have : N ≤ Bn * N - b * N := by
    rw [← Nat.sub_mul]
    calc N = 1 * N := (Nat.one_mul N).symm
    _ ≤ (Bn - b) * N := Nat.mul_le_mul_right N (by omega)
  omega

lemma flatMap_eq_nil {α : Type} (f : α → List ℚ) (l : List α)
    (hf : ∀ x ∈ l, f x = []) : l.flatMap f = [] := by
  induction l with
  | nil => rfl
  | cons x xs ih =>
      rw [List.flatMap_cons, hf x (List.mem_cons_self x xs),
        List.nil_append, ih (fun y hy => hf y (List.mem_cons_of_mem x hy))]

lemma apply_eq_nil (w : Nat → ℚ) (noise : Nat → Nat → ℚ)
    (tf : List ℚ → List ℚ) (p : FeatureParams) (input : List ℚ)
    (hN : input.length < p.numFrameSizeSamples.toNat) :
    apply w noise tf p input = [] := by
  unfold apply
  rw [if_pos]
  rw [List.isEmpty_iff_length_eq_zero, length_frameSignal,
    (numFrames_eq_zero_iff p _).mpr hN]

lemma batchApply_eq_loop (w : Nat → ℚ) (noise : Nat → Nat → ℚ)
    (tf : List ℚ → List ℚ) (p : FeatureParams) (input : List ℚ)
    (B : Int) (hB : 0 < B) (hdiv : input.length % B.toNat = 0) :
    batchApply w noise tf p input B =
      batchLoop (outputSize p (input.length / B.toNat))
        (fun b => apply w noise tf p
          ((input.drop (b * (input.length / B.toNat))).take
            (input.length / B.toNat)))
        (List.range B.toNat) := by
  unfold batchApply
  rw [if_neg (not_le.mpr hB), if_neg (by simpa using hdiv)]

lemma preemFrame_zero (h : ℚ) (fr : List ℚ) : preemFrame 0 h fr = fr := by
  induction fr generalizing h with
  | nil => rfl
  | cons x xs ih => simp [preemFrame, List.zipWith] at ih ⊢; exact ih x

lemma preEmphasisFrames_zero (frames : List (List ℚ)) :
    preEmphasisFrames 0 frames = frames := by
  unfold preEmphasisFrames
  have hfn : (fun q : List ℚ × ℚ => preemFrame 0 q.2 q.1) = Prod.fst := by
    funext q
    exact preemFrame_zero q.2 q.1
  rw [hfn, List.map_fst_zip _ _ (by simp)]

/-! ### Concrete configuration used by the witnesses: the spec's
scenario (16 kHz, 25 ms frames, 10 ms stride, 512-point transform,
`K = 257`), a rectangular window, zero dither noise, and a backend
returning 257 bins per frame. -/

def pT : FeatureParams := ⟨16000, 25, 10, 512, 0, 0, false⟩

def wT : Nat → ℚ := fun _ => 1

def noiseT : Nat → Nat → ℚ := fun _ _ => 0

def tfT : List ℚ → List ℚ := fun _ => List.replicate 257 0

def inputT : List ℚ := List.replicate 800 1

lemma inputT_len : inputT.length = 800 := List.length_replicate 800 1

lemma tfT_len : ∀ x, (tfT x).length = pT.powSpecFeatSz := by
  intro x
  have h1 : (tfT x).length = 257 := List.length_replicate 257 0
  have h2 : pT.powSpecFeatSz = 257 := by decide
  rw [h1, h2]

/-! ### Claims -/

/-- C1: for every valid `FeatureParams` and every input waveform,
`outputSize(N)` equals `powSpecFeatSz * numFrames(N)` (with `K` the
number of retained spectral bins), and `apply`'s result has exactly
`outputSize(N)` elements, given that the backend transform writes `K`
bins per frame. -/
theorem C1_outputSize_and_apply_length (p : FeatureParams)
    (_hp : validParams p) (w : Nat → ℚ) (noise : Nat → Nat → ℚ)
    (tf : List ℚ → List ℚ)
    (htf : ∀ x, (tf x).length = p.powSpecFeatSz) (input : List ℚ) :
    outputSize p input.length =
      p.powSpecFeatSz * p.numFrames input.length ∧
    (apply w noise tf p input).length = outputSize p input.length :=
  ⟨rfl, apply_length w noise tf p htf input⟩

/-- Witness for C1 at the concrete 16 kHz configuration and an
800-sample input. -/
theorem C1_witness :
    outputSize pT inputT.length =
      pT.powSpecFeatSz * pT.numFrames inputT.length ∧
    (apply wT noiseT tfT pT inputT).length = outputSize pT inputT.length :=
  C1_outputSize_and_apply_length pT (by decide) wT noiseT tfT tfT_len
    inputT

/-- C3: `batchApply` returns the InvalidArgument error exactly when the
batch count is nonpositive or the input length is not evenly divisible
by it; the error result carries no output. -/
theorem C3_invalidArgument_iff (w : Nat → ℚ) (noise : Nat → Nat → ℚ)
    (tf : List ℚ → List ℚ) (p : FeatureParams) (input : List ℚ)
    (B : Int) :
    batchApply w noise tf p input B =
        Except.error PsError.invalidArgument ↔
      B ≤ 0 ∨ input.length % B.toNat ≠ 0 := by
  unfold batchApply
  by_cases h1 : B ≤ 0
  · simp [h1]
  · rw [if_neg h1]
    by_cases h2 : input.length % B.toNat ≠ 0
    · simp [h2, h1]
    · rw [if_neg h2]
      constructor
      · intro h
        exact absurd h (batchLoop_ne_invalidArgument _ _ _)
      · rintro (h | h)
        · exact absurd h h1
        · exact absurd h h2

/-- C4: an input shorter than one frame yields zero frames and `apply`
returns the empty sequence (success, not failure). -/
theorem C4_short_input_empty (p : FeatureParams) (_hp : validParams p)
    (w : Nat → ℚ) (noise : Nat → Nat → ℚ) (tf : List ℚ → List ℚ)
    (input : List ℚ)
    (hN : input.length < p.numFrameSizeSamples.toNat) :
    p.numFrames input.length = 0 ∧ apply w noise tf p input = [] := by
  have h0 : p.numFrames input.length = 0 :=
    (numFrames_eq_zero_iff p _).mpr hN
  refine ⟨h0, ?_⟩
  unfold apply
  rw [if_pos]
  rw [List.isEmpty_iff_length_eq_zero, length_frameSignal, h0]

/-- Witness for C4: a 100-sample input against the 400-sample frame
size. -/
theorem C4_witness :
    pT.numFrames (List.replicate 100 (1 : ℚ)).length = 0 ∧
      apply wT noiseT tfT pT (List.replicate 100 (1 : ℚ)) = [] :=
  C4_short_input_empty pT (by decide) wT noiseT tfT
    (List.replicate 100 (1 : ℚ)) (by simp [pT]; decide)

/-- C6: constructing a `PowerSpectrum` fails with the
InvalidConfiguration error exactly when one of the five parameter
checks fails, and a value passing all five constructs the state with
its transform buffers. -/
theorem C6_construction_validation (p : FeatureParams) :
    (mkPowerSpectrum p = Except.error PsError.invalidConfiguration ↔
      p.samplingFreq ≤ 0 ∨ p.frameSizeMs ≤ 0 ∨ p.frameStrideMs ≤ 0 ∨
        p.numFrameSizeSamples ≤ 0 ∨ p.numFrameStrideSamples ≤ 0) ∧
    (validParams p → mkPowerSpectrum p =
      Except.ok ⟨p, List.replicate p.nFft 0,
        List.replicate (2 * p.nFft) 0⟩) := by
  constructor
  · unfold mkPowerSpectrum validatePowSpecParams
    by_cases h1 : p.samplingFreq ≤ 0 <;>
      by_cases h2 : p.frameSizeMs ≤ 0 <;>
      by_cases h3 : p.frameStrideMs ≤ 0 <;>
      by_cases h4 : p.numFrameSizeSamples ≤ 0 <;>
      by_cases h5 : p.numFrameStrideSamples ≤ 0 <;>
      simp [h1, h2, h3, h4, h5]
  · rintro ⟨v1, v2, v3, v4, v5⟩
    unfold mkPowerSpectrum validatePowSpecParams
    rw [if_neg (not_le.mpr v1), if_neg (not_le.mpr v2),
      if_neg (not_le.mpr v3), if_neg (not_le.mpr v4),
      if_neg (not_le.mpr v5)]

/-- Witness for C6 at the concrete 16 kHz configuration. -/
theorem C6_witness :
    (mkPowerSpectrum pT = Except.error PsError.invalidConfiguration ↔
      pT.samplingFreq ≤ 0 ∨ pT.frameSizeMs ≤ 0 ∨ pT.frameStrideMs ≤ 0 ∨
        pT.numFrameSizeSamples ≤ 0 ∨ pT.numFrameStrideSamples ≤ 0) ∧
    (validParams pT → mkPowerSpectrum pT =
      Except.ok ⟨pT, List.replicate pT.nFft 0,
        List.replicate (2 * pT.nFft) 0⟩) :=
  C6_construction_validation pT

/-- C2: for a positive batch count dividing the input length (and a
backend writing `K` bins per frame), `batchApply` returns exactly the
concatenation, in slice order, of `apply` on the `B` consecutive
equal-length slices. -/
theorem C2_batchApply_eq_concat (w : Nat → ℚ) (noise : Nat → Nat → ℚ)
    (tf : List ℚ → List ℚ) (p : FeatureParams)
    (htf : ∀ x, (tf x).length = p.powSpecFeatSz) (input : List ℚ)
    (B : Int) (hB : 0 < B) (hdiv : input.length % B.toNat = 0) :
    batchApply w noise tf p input B =
      Except.ok ((List.range B.toNat).flatMap
        (fun b => apply w noise tf p
          ((input.drop (b * (input.length / B.toNat))).take
            (input.length / B.toNat)))) := by
  rw [batchApply_eq_loop w noise tf p input B hB hdiv]
  have hlen : input.length = B.toNat * (input.length / B.toNat) :=
    (Nat.mul_div_cancel' (Nat.dvd_of_mod_eq_zero hdiv)).symm
  exact batchLoop_ok_of_len _ _ _ (fun b hb => by
    rw [apply_length w noise tf p htf,
      slice_length input B.toNat _ b hlen (List.mem_range.mp hb)])

/-- Witness for C2: 800 samples split into two utterances of 400. -/
theorem C2_witness :
    batchApply wT noiseT tfT pT inputT 2 =
      Except.ok ((List.range (2 : Int).toNat).flatMap
        (fun b => apply wT noiseT tfT pT
          ((inputT.drop (b * (inputT.length / (2 : Int).toNat))).take
            (inputT.length / (2 : Int).toNat)))) :=
  C2_batchApply_eq_concat wT noiseT tfT pT tfT_len inputT 2 (by decide)
    (by rw [inputT_len]; decide)

/-- C7: `batchApply` (past its argument guards) fails with the
InternalInconsistency error exactly when some utterance's `apply`
result length differs from the statically predicted `outputSize`; under
the contract that the backend writes `K` bins per frame, that branch is
unreachable. -/
theorem C7_internalInconsistency_iff (w : Nat → ℚ)
    (noise : Nat → Nat → ℚ) (tf : List ℚ → List ℚ) (p : FeatureParams)
    (input : List ℚ) (B : Int) (hB : 0 < B)
    (hdiv : input.length % B.toNat = 0) :
    (batchApply w noise tf p input B =
        Except.error PsError.internalInconsistency ↔
      ∃ b < B.toNat,
        (apply w noise tf p
          ((input.drop (b * (input.length / B.toNat))).take
            (input.length / B.toNat))).length ≠
          outputSize p (input.length / B.toNat)) ∧
    ((∀ x, (tf x).length = p.powSpecFeatSz) →
      batchApply w noise tf p input B ≠
        Except.error PsError.internalInconsistency) := by
  have hlen : input.length = B.toNat * (input.length / B.toNat) :=
    (Nat.mul_div_cancel' (Nat.dvd_of_mod_eq_zero hdiv)).symm
  have hmain : batchApply w noise tf p input B =
      Except.error PsError.internalInconsistency ↔
      ∃ b < B.toNat,
        (apply w noise tf p
          ((input.drop (b * (input.length / B.toNat))).take
            (input.length / B.toNat))).length ≠
          outputSize p (input.length / B.toNat) := by
    rw [batchApply_eq_loop w noise tf p input B hB hdiv,
      batchLoop_error_internal_iff]
    constructor
    · rintro ⟨b, hb, hne⟩
      exact ⟨b, List.mem_range.mp hb, hne⟩
    · rintro ⟨b, hb, hne⟩
      exact ⟨b, List.mem_range.mpr hb, hne⟩
  refine ⟨hmain, fun htf hcontra => ?_⟩
  rcases hmain.mp hcontra with ⟨b, hb, hne⟩
  exact hne (by
    rw [apply_length w noise tf p htf,
      slice_length input B.toNat _ b hlen hb])

/-- Witness for C7 at the two-utterance split of the 800-sample
input. -/
theorem C7_witness :
    (batchApply wT noiseT tfT pT inputT 2 =
        Except.error PsError.internalInconsistency ↔
      ∃ b < (2 : Int).toNat,
        (apply wT noiseT tfT pT
          ((inputT.drop (b * (inputT.length / (2 : Int).toNat))).take
            (inputT.length / (2 : Int).toNat))).length ≠
          outputSize pT (inputT.length / (2 : Int).toNat)) ∧
    ((∀ x, (tfT x).length = pT.powSpecFeatSz) →
      batchApply wT noiseT tfT pT inputT 2 ≠
        Except.error PsError.internalInconsistency) :=
  C7_internalInconsistency_iff wT noiseT tfT pT inputT 2 (by decide)
    (by rw [inputT_len]; decide)

/-- C10: when the per-utterance length yields zero frames, `batchApply`
succeeds with the empty output — the empty-output case of `apply`
passes the size check without the InternalInconsistency error. -/
theorem C10_empty_batch (w : Nat → ℚ) (noise : Nat → Nat → ℚ)
    (tf : List ℚ → List ℚ) (p : FeatureParams) (input : List ℚ)
    (B : Int) (hB : 0 < B) (hdiv : input.length % B.toNat = 0)
    (hnf : p.numFrames (input.length / B.toNat) = 0) :
    batchApply w noise tf p input B = Except.ok [] := by
  rw [batchApply_eq_loop w noise tf p input B hB hdiv]
  have hNlt : input.length / B.toNat < p.numFrameSizeSamples.toNat :=
    (numFrames_eq_zero_iff p _).mp hnf
  have hlen : input.length = B.toNat * (input.length / B.toNat) :=
    (Nat.mul_div_cancel' (Nat.dvd_of_mod_eq_zero hdiv)).symm
  have happly : ∀ b ∈ List.range B.toNat,
      apply w noise tf p
        ((input.drop (b * (input.length / B.toNat))).take
          (input.length / B.toNat)) = [] := by
    intro b hb
    exact apply_eq_nil w noise tf p _ (by
      rw [slice_length input B.toNat _ b hlen (List.mem_range.mp hb)]
      exact hNlt)
  have hout : outputSize p (input.length / B.toNat) = 0 := by
    rw [outputSize, hnf, Nat.mul_zero]
  rw [hout, batchLoop_ok_of_len 0 _ _
    (fun b hb => by rw [happly b hb]; rfl),
    flatMap_eq_nil _ _ happly]

/-- Witness for C10: 100 samples split into two utterances of 50, each
shorter than one 400-sample frame. -/
theorem C10_witness :
    batchApply wT noiseT tfT pT (List.replicate 100 (1 : ℚ)) 2 =
      Except.ok [] :=
  C10_empty_batch wT noiseT tfT pT (List.replicate 100 (1 : ℚ)) 2
    (by decide) (by decide) (by decide)

/-- C5: on a non-empty frame matrix, `powSpectrumImpl` is exactly the
spec's stage sequence — dither only when the amplitude is nonzero,
zero-mean only when the flag is set, pre-emphasis only when the
coefficient is nonzero, windowing always — run in that order and
followed by the per-frame transform, with no stage repeated. -/
theorem C5_stage_order (w : Nat → ℚ) (noise : Nat → Nat → ℚ)
    (tf : List ℚ → List ℚ) (p : FeatureParams)
    (frames : List (List ℚ)) (_hne : frames ≠ []) :
    powSpectrumImpl w noise tf p frames =
      (runStages w noise p (specStageList p) frames).flatMap
        (fun fr => tf (padTo p.nFft fr)) ∧
    (specStageList p).Nodup ∧
    Stage.windowing ∈ specStageList p ∧
    (Stage.dither ∈ specStageList p ↔ p.ditherVal ≠ 0) ∧
    (Stage.zeroMean ∈ specStageList p ↔ p.zeroMeanFrame = true) ∧
    (Stage.preEmphasis ∈ specStageList p ↔ p.preemCoef ≠ 0) := by
  by_cases hd : p.ditherVal = 0 <;> by_cases hz : p.zeroMeanFrame <;>
    by_cases hpe : p.preemCoef = 0 <;>
    simp [powSpectrumImpl, specStageList, runStages, runStage, hd, hz,
      hpe]

/-- Witness for C5 on a one-frame matrix. -/
theorem C5_witness :
    powSpectrumImpl wT noiseT tfT pT [[1]] =
      (runStages wT noiseT pT (specStageList pT) [[1]]).flatMap
        (fun fr => tfT (padTo pT.nFft fr)) ∧
    (specStageList pT).Nodup ∧
    Stage.windowing ∈ specStageList pT ∧
    (Stage.dither ∈ specStageList pT ↔ pT.ditherVal ≠ 0) ∧
    (Stage.zeroMean ∈ specStageList pT ↔ pT.zeroMeanFrame = true) ∧
    (Stage.preEmphasis ∈ specStageList pT ↔ pT.preemCoef ≠ 0) :=
  C5_stage_order wT noiseT tfT pT [[1]] (by simp)

/-- C8: with pre-emphasis coefficient 0 the pipeline output equals the
pipeline with the pre-emphasis stage removed, and the pre-emphasis
transform itself is the identity on the frame matrix. -/
theorem C8_preemphasis_zero_identity (w : Nat → ℚ)
    (noise : Nat → Nat → ℚ) (tf : List ℚ → List ℚ) (p : FeatureParams)
    (hpe : p.preemCoef = 0) (frames : List (List ℚ)) :
    powSpectrumImpl w noise tf p frames =
      powSpectrumImplNoPreem w noise tf p frames ∧
    preEmphasisFrames p.preemCoef frames = frames := by
  constructor
  · unfold powSpectrumImpl powSpectrumImplNoPreem
    simp [hpe]
  · rw [hpe, preEmphasisFrames_zero]

/-- Witness for C8 at the concrete configuration (whose pre-emphasis
coefficient is 0) on a one-frame matrix. -/
theorem C8_witness :
    powSpectrumImpl wT noiseT tfT pT [[1]] =
      powSpectrumImplNoPreem wT noiseT tfT pT [[1]] ∧
    preEmphasisFrames pT.preemCoef [[1]] = [[1]] :=
  C8_preemphasis_zero_identity wT noiseT tfT pT rfl [[1]]

end Flashlight
